import Mathlib

/-! Shallow embedding of `journal_transporter/progress/abstract_progress_reporter.py`.

Python `int`/`float` progress arithmetic is modelled over `Rat`: Python ints are
exact, and the only division in the module (`progress / self.subtask_length`)
is modelled as exact rational division.  Python `None`-able parameters become
`Option`s, and Python truthiness (`if progress:`, `if message:`, `a or b`) is
modelled explicitly.  The abstract renderer hooks (`_new_progress_bar`,
`_print_message`, `set_progress`, `set_message`, `_update_interface`,
`_get_error_response`) and the log sink are modelled as a trace of
`RendererCall` events produced alongside the state; runtime exceptions
(`TypeError` from `None / int`, `IndexError` from `error.args[0]`) are
modelled with `Except PyFault`. -/

namespace JournalTransporter

/-- Modelled from the spec: `progress/progress_update_type.py` is not among the
sources; spec section 3 (UpdateKind) lists exactly four variants
Major / Minor / Detail / Debug. -/
inductive ProgressUpdateType where
  | major
  | minor
  | detail
  | debug
deriving DecidableEq

/-- Modelled from the spec: `transfer/exceptions.py` (ServerResponseError) is
not among the sources; spec section 7 and the use in `__error_info` show it
carries a response with a status code, a reason phrase and a body text. -/
structure ServerResponse where
  status_code : Int
  reason : String
  text : String
deriving DecidableEq

/-- A Python exception value as observed by `report_error` / `__error_info`:
its `args` tuple (modelled as a list of strings) and, when the exception is a
`ServerResponseError`, the structured response payload. -/
structure PyException where
  args : List String
  serverResponse : Option ServerResponse
deriving DecidableEq

/-- Runtime faults of the Python code that the embedding can hit. -/
inductive PyFault where
  | typeError
  | indexError
deriving DecidableEq

/-- Calls issued to the abstract renderer hooks / the log sink, in order. -/
inductive RendererCall where
  | newProgressBarCall (length : Rat) (beforeMessage : Option String)
      (barInitMessage : Option Rat) (start : Rat)
  | closeBarCall
  | setProgressCall (value : Rat)
  | setMessageCall (m : String)
  | updateInterfaceCall (progress : Rat) (message : Option String)
  | printMessageCall (text : Option String)
  | logWriteCall (text : String)
  | promptCall (error : PyException) (context : List (String × String))
deriving DecidableEq

/-- The state of an `AbstractProgressReporter` (the `interface` handle is
replaced by the `RendererCall` trace).  `subtask_length` mirrors the Python
attribute: `none` = the attribute was never set (`hasattr` is false),
`some none` = set to Python `None`, `some (some l)` = set to the number `l`. -/
structure Reporter where
  debug_mode : Bool
  log_debug : Bool
  log_error : Bool
  log_file : Option String
  needs_log_file : Bool
  on_error : String
  verbose_mode : Bool
  progress : Rat
  message : Option String
  progress_length : Rat
  subtask_length : Option (Option Rat)
deriving DecidableEq

/-- `__init__` of `AbstractProgressReporter` (the `interface` argument and the
implementation-specific `**args` / `setup()` hook are dropped; `setup` is a
no-op in the abstract class). -/
def initReporter (init_message : Option String) (start : Rat) (verbose : Bool)
    (debug : Bool) (log : String) (on_error : String) : Reporter :=
  { debug_mode := debug
    log_debug := ["d", "debug"].contains log
    log_error := ["e", "error"].contains log
    log_file := none
    needs_log_file := ["d", "debug"].contains log || ["e", "error"].contains log
    on_error := on_error
    verbose_mode := verbose
    progress := start
    message := init_message
    progress_length := 100
    subtask_length := none }

/-- Python truthiness of an optional string (`None` and `""` are falsy). -/
def strTruthy : Option String → Bool
  | none => false
  | some s => decide (s ≠ "")

/-- Python truthiness of an optional number (`None` and `0` are falsy). -/
def ratTruthy : Option Rat → Bool
  | none => false
  | some q => decide (q ≠ 0)

/-- Python `a or b` on optional strings. -/
def pyOrStr (a b : Option String) : Option String :=
  if strTruthy a then a else b

/-- Truthiness of `self.subtask_length` as used in
`hasattr(self, "subtask_length") and self.subtask_length`. -/
def subtaskTruthy (r : Reporter) : Bool :=
  match r.subtask_length with
  | some (some l) => decide (l ≠ 0)
  | _ => false

/-- The numeric value of `self.subtask_length` (only meaningful when
`subtaskTruthy` holds). -/
def subtaskVal (r : Reporter) : Rat :=
  match r.subtask_length with
  | some (some l) => l
  | _ => 0

/-- `_handle_debug`: prints `f"{now} -- {message}"` when in debug mode and the
message is truthy. -/
def handle_debug (r : Reporter) (now : String) (message : Option String) :
    List RendererCall :=
  if r.debug_mode && strTruthy message then
    [RendererCall.printMessageCall (some (now ++ " -- " ++ message.getD ""))]
  else []

/-- `__write_to_log`: appends `f"{now} -- {message}"` when a log file is set
and the message is truthy. -/
def write_to_log (r : Reporter) (now : String) (message : Option String) :
    List RendererCall :=
  if strTruthy r.log_file && strTruthy message then
    [RendererCall.logWriteCall (now ++ " -- " ++ message.getD "")]
  else []

/-- The non-debug-mode dispatch body of `update` (the `elif update_type is not
ProgressUpdateType.DEBUG:` chain), producing the new state and the renderer
calls it issues.  A `Detail` update with an active truthy `subtask_length` and
no `progress` evaluates `None / self.subtask_length`, a `TypeError`. -/
def updateCore (r : Reporter) (update_type : ProgressUpdateType)
    (progress : Option Rat) (message : Option String) (length : Rat) :
    Except PyFault (Reporter × List RendererCall) :=
  match update_type with
  | ProgressUpdateType.major =>
      if r.verbose_mode then
        Except.ok (r, [RendererCall.printMessageCall message])
      else
        Except.ok
          ({ r with subtask_length := some none, message := message,
                    progress_length := length },
           [RendererCall.newProgressBarCall length message progress 0])
  | ProgressUpdateType.minor =>
      if r.verbose_mode then
        Except.ok
          ({ r with progress_length := length, message := message },
           [RendererCall.newProgressBarCall length message none 0])
      else
        let r₁ := { r with subtask_length := some (some length) }
        let step₂ : Reporter × List RendererCall :=
          if ratTruthy progress then
            ({ r₁ with progress := progress.getD 0 },
             [RendererCall.setProgressCall (progress.getD 0)])
          else (r₁, [])
        let step₃ : Reporter × List RendererCall :=
          if strTruthy message then
            ({ step₂.1 with message := message },
             [RendererCall.setMessageCall (message.getD "")])
          else (step₂.1, [])
        Except.ok (step₃.1,
          step₂.2 ++ step₃.2 ++
            [RendererCall.updateInterfaceCall step₃.1.progress step₃.1.message])
  | ProgressUpdateType.detail =>
      let weighted : Except PyFault (Option Rat) :=
        if subtaskTruthy r then
          match progress with
          | none => Except.error PyFault.typeError
          | some p => Except.ok (some (p / subtaskVal r))
        else Except.ok progress
      match weighted with
      | Except.error e => Except.error e
      | Except.ok w =>
        let step₂ : Reporter × List RendererCall :=
          if ratTruthy progress then
            ({ r with progress := w.getD 0 },
             [RendererCall.setProgressCall (w.getD 0)])
          else (r, [])
        let step₃ : Reporter × List RendererCall :=
          if strTruthy message && r.verbose_mode then
            ({ step₂.1 with message := message },
             [RendererCall.setMessageCall (message.getD "")])
          else (step₂.1, [])
        Except.ok (step₃.1,
          step₂.2 ++ step₃.2 ++
            [RendererCall.updateInterfaceCall step₃.1.progress step₃.1.message])
  | ProgressUpdateType.debug => Except.ok (r, [])

/-- `update`: the debug-mode early return, then the dispatch, then the
`if self.log_debug:` trailer.  `now` stands for `datetime.now()`. -/
def update (r : Reporter) (now : String) (update_type : ProgressUpdateType)
    (progress : Option Rat) (message : Option String) (length : Rat)
    (debug_message : Option String) :
    Except PyFault (Reporter × List RendererCall) :=
  if r.debug_mode then
    Except.ok (r, handle_debug r now (pyOrStr debug_message message))
  else
    match updateCore r update_type progress message length with
    | Except.error e => Except.error e
    | Except.ok (r₁, calls) =>
        Except.ok (r₁,
          calls ++
            if r₁.log_debug then
              write_to_log r₁ now (pyOrStr debug_message message)
            else [])

/-- The `major` shortcut. -/
def major (r : Reporter) (now : String) (message : Option String) (length : Rat)
    (debug_message : Option String) :
    Except PyFault (Reporter × List RendererCall) :=
  update r now ProgressUpdateType.major none message length debug_message

/-- The `minor` shortcut. -/
def minor (r : Reporter) (now : String) (progress : Option Rat)
    (message : Option String) (length : Rat) (debug_message : Option String) :
    Except PyFault (Reporter × List RendererCall) :=
  update r now ProgressUpdateType.minor progress message length debug_message

/-- The `detail` shortcut (length keeps the default 100). -/
def detail (r : Reporter) (now : String) (progress : Option Rat)
    (message : Option String) (debug_message : Option String) :
    Except PyFault (Reporter × List RendererCall) :=
  update r now ProgressUpdateType.detail progress message 100 debug_message

/-- The `debug` shortcut. -/
def debugShortcut (r : Reporter) (now : String) (message : String) :
    Except PyFault (Reporter × List RendererCall) :=
  update r now ProgressUpdateType.debug none none 100 (some message)

/-- `__error_info`: the server-response formatting, or `error.args[0]`, which
raises `IndexError` when `args` is empty. -/
def error_info (error : PyException) : Except PyFault String :=
  match error.serverResponse with
  | some resp =>
      Except.ok ("Server returned an error response:" ++ "Status " ++
        toString resp.status_code ++ " - " ++ resp.reason ++ resp.text)
  | none =>
      match error.args with
      | [] => Except.error PyFault.indexError
      | a :: _ => Except.ok a

/-- `report_error`: pick the response from `on_error` (falling through to the
UI prompt, modelled by the `promptResponse` argument plus a `promptCall`
event), then maybe log, then return.  `PrettyPrinter(...).pprint(context)`
returns Python `None`, so the logged line ends in the literal `"None"` and the
context itself never reaches the log. -/
def report_error (r : Reporter) (now : String) (error : PyException)
    (context : List (String × String)) (promptResponse : String) :
    Except PyFault (String × List RendererCall) :=
  let pr : String × List RendererCall :=
    if ["c", "continue"].contains r.on_error then ("continue", [])
    else if ["a", "abort"].contains r.on_error then ("abort", [])
    else (promptResponse, [RendererCall.promptCall error context])
  if r.log_error then
    match error_info error with
    | Except.error e => Except.error e
    | Except.ok info =>
        Except.ok (pr.1, pr.2 ++ write_to_log r now (some (info ++ "\n" ++ "None")))
  else Except.ok pr

/-- One `update` call with its arguments (`now` stands for the wall clock at
the time of the call). -/
structure UpdateEvent where
  now : String
  update_type : ProgressUpdateType
  progress : Option Rat
  message : Option String
  length : Rat
  debug_message : Option String
deriving DecidableEq

/-- Apply one `UpdateEvent`. -/
def updateEv (r : Reporter) (e : UpdateEvent) :
    Except PyFault (Reporter × List RendererCall) :=
  update r e.now e.update_type e.progress e.message e.length e.debug_message

/-- Run a sequence of `update` calls, concatenating the traces; the first
fault aborts the run, as an uncaught Python exception would. -/
def runSeq : Reporter → List UpdateEvent →
    Except PyFault (Reporter × List RendererCall)
  | r, [] => Except.ok (r, [])
  | r, e :: rest =>
    match updateEv r e with
    | Except.error f => Except.error f
    | Except.ok (r₁, c₁) =>
      match runSeq r₁ rest with
      | Except.error f => Except.error f
      | Except.ok (r₂, c₂) => Except.ok (r₂, c₁ ++ c₂)

/-- Run a sequence of `update` calls keeping the whole trajectory: the state
after each call paired with the calls that step issued. -/
def runTrace : Reporter → List UpdateEvent →
    Except PyFault (List (Reporter × List RendererCall))
  | _, [] => Except.ok []
  | r, e :: rest =>
    match updateEv r e with
    | Except.error f => Except.error f
    | Except.ok (r₁, c₁) =>
      match runTrace r₁ rest with
      | Except.error f => Except.error f
      | Except.ok steps => Except.ok ((r₁, c₁) :: steps)

/-- `subtask_length` is absent in the sense of the spec: the attribute was
never set, or it was set to Python `None`. -/
def subtaskAbsent (r : Reporter) : Prop :=
  r.subtask_length = none ∨ r.subtask_length = some none

/-- Is a trace event the interactive error prompt? -/
def isPromptEvent : RendererCall → Bool
  | RendererCall.promptCall _ _ => true
  | _ => false

/-- The boundedness invariant for the C4 analysis: non-verbose, non-debug,
progress within the current bar length, bar length at least 1, and a
non-negative stored subtask length. -/
def invB (r : Reporter) : Bool :=
  !r.debug_mode && !r.verbose_mode && decide (r.progress ≤ r.progress_length) &&
    decide ((1 : Rat) ≤ r.progress_length) && decide ((0 : Rat) ≤ subtaskVal r)

/-- A well-behaved caller event relative to the current state: major lengths
are ≥ 1 and at least the (stale, never reset) current progress; minor lengths
are ≥ 0 and minor progress, when given, lies within the current bar; detail
progress is provided and lies within the active nonzero subtask length (or
within the bar when none is active). -/
def goodEvent (r : Reporter) (e : UpdateEvent) : Bool :=
  match e.update_type with
  | ProgressUpdateType.major =>
      decide ((1 : Rat) ≤ e.length) && decide (r.progress ≤ e.length)
  | ProgressUpdateType.minor =>
      decide ((0 : Rat) ≤ e.length) &&
        (match e.progress with
         | none => true
         | some p => decide ((0 : Rat) ≤ p) && decide (p ≤ r.progress_length))
  | ProgressUpdateType.detail =>
      match e.progress with
      | none => false
      | some p =>
          decide ((0 : Rat) ≤ p) &&
            (if subtaskTruthy r then decide (p ≤ subtaskVal r)
             else decide (p ≤ r.progress_length))
  | ProgressUpdateType.debug => true

/-- A whole event sequence is well-behaved along its own run. -/
def goodRun : Reporter → List UpdateEvent → Bool
  | _, [] => true
  | r, e :: rest =>
    goodEvent r e &&
      match updateEv r e with
      | Except.error _ => false
      | Except.ok (r₁, _) => goodRun r₁ rest

/-- A default non-verbose, non-debug reporter with no logging and interactive
error handling. -/
def plainReporter : Reporter := initReporter none 0 false false "n" "i"

/-- A debug-mode reporter, as in the spec scenario `{debugMode: true}`. -/
def debugReporter : Reporter := initReporter none 0 false true "n" "i"

/-- A non-verbose, non-debug reporter with an active minor scope of length 5
and current progress 2, as after `major` / `minor(length=5)` /
`detail(progress=10)`. -/
def minorScopeReporter : Reporter :=
  { plainReporter with subtask_length := some (some 5), progress := 2 }

/-- Claim C3 — the failing run: in non-verbose, non-debug mode, after
`major(length=10)` and `minor(length=5)` (so `subtask_length = 5` is active), a
`detail` update that provides no progress value raises a `TypeError` from
`None / self.subtask_length` instead of completing normally with only the
renderer push. -/
theorem C3_detail_without_progress_raises :
    runSeq plainReporter
      [⟨"t1", ProgressUpdateType.major, none, some "Importing", 10, none⟩,
       ⟨"t2", ProgressUpdateType.minor, none, some "Articles", 5, none⟩,
       ⟨"t3", ProgressUpdateType.detail, none, some "working", 100, none⟩] =
      Except.error PyFault.typeError := rfl

/-- Claim C6 — the failing input: with `logMode = Error` (`log = "e"`), even in
auto-continue error mode, `report_error` applied to an exception whose `args`
tuple is empty (and which is not a `ServerResponseError`) raises `IndexError`
from `error.args[0]` inside `__error_info`, instead of returning a response
string. -/
theorem C6_report_error_raises_on_argless_exception :
    report_error (initReporter none 0 false false "e" "c") "t"
      { args := [], serverResponse := none } [("record", "1")] "resp" =
      Except.error PyFault.indexError := rfl

/-- Claim C4 — counterexample: nothing clamps progress, so in non-verbose mode
the sequence `major(length=10)` then `detail(progress=20)` (no minor scope
active, so the value is applied as-is) leaves the reporter holding progress 20
while the most recently set bar length is 10, and 10 < 20. -/
theorem C4_progress_can_exceed_bar_length :
    (runSeq plainReporter
      [⟨"t1", ProgressUpdateType.major, none, some "m", 10, none⟩,
       ⟨"t2", ProgressUpdateType.detail, some 20, none, 100, none⟩]).toOption.map
        (fun p => (p.1.progress, p.1.progress_length)) = some (20, 10) ∧
    (10 : Rat) < 20 := by
  exact ⟨rfl, by norm_num⟩

/-- Claim C8 — counterexample: with `debugMode = true`, the run
`major("Importing")` then `detail(progress=3)` issues exactly ONE `printLine`
call, not two: the detail update carries no message, so `_handle_debug` prints
nothing for it.  (Zero bar operations, as the full trace shows.) -/
theorem C8_debug_scenario_prints_once :
    runSeq debugReporter
      [⟨"t1", ProgressUpdateType.major, none, some "Importing", 100, none⟩,
       ⟨"t2", ProgressUpdateType.detail, some 3, none, 100, none⟩] =
      Except.ok (debugReporter,
        [RendererCall.printMessageCall (some ("t1" ++ " -- " ++ "Importing"))]) := rfl

/-- Claim C8 (amended): with `debugMode = true`, `major("Importing")` followed
by `detail(progress=3)` produces exactly one `printLine` call — a timestamped
line for the major update; the detail update has no message and prints
nothing — and zero bar operations. -/
theorem C8_amended_debug_scenario (now₁ now₂ : String) :
    runSeq debugReporter
      [⟨now₁, ProgressUpdateType.major, none, some "Importing", 100, none⟩,
       ⟨now₂, ProgressUpdateType.detail, some 3, none, 100, none⟩] =
      Except.ok (debugReporter,
        [RendererCall.printMessageCall (some (now₁ ++ " -- " ++ "Importing"))]) := rfl

/-- Claim C9 — counterexample: construction with the unrecognized tokens
`log = "bogus"` and `on_error = "bogus"` does not signal any error; it returns
a fully configured reporter (with both log flags off and the bogus error token
stored verbatim). -/
theorem C9_construction_accepts_bogus_tokens :
    initReporter none 0 false false "bogus" "bogus" =
      { debug_mode := false, log_debug := false, log_error := false,
        log_file := none, needs_log_file := false, on_error := "bogus",
        verbose_mode := false, progress := 0, message := none,
        progress_length := 100, subtask_length := none } := rfl

/-- Claim C10 — counterexample: with a minor scope of nonzero length active, a
`Detail` update carrying `progress = 0` completes normally (progress left at 2,
only the renderer push issued), but the very same update with progress NOT
provided raises a `TypeError` — so dropping the zero is not "exactly as if
progress had not been provided". -/
theorem C10_zero_differs_from_absent :
    detail minorScopeReporter "t" (some 0) none none =
      Except.ok (minorScopeReporter, [RendererCall.updateInterfaceCall 2 none]) ∧
    detail minorScopeReporter "t" none none none =
      Except.error PyFault.typeError := ⟨rfl, rfl⟩

/-- In debug mode, `update` returns early through `_handle_debug`, leaving the
state untouched. -/
theorem update_debug_eq (r : Reporter) (h : r.debug_mode = true) (now : String)
    (t : ProgressUpdateType) (p : Option Rat) (m : Option String) (len : Rat)
    (dm : Option String) :
    update r now t p m len dm =
      Except.ok (r, handle_debug r now (pyOrStr dm m)) := by
  simp [update, h]

/-- `detail` with a truthy `subtask_length` and truthy progress, non-verbose:
the progress setter receives `progress / subtask_length`. -/
theorem detail_weighted_eq (r : Reporter) (hd : r.debug_mode = false)
    (hv : r.verbose_mode = false) (hsub : subtaskTruthy r = true)
    (now : String) (p : Rat) (hp : p ≠ 0) (m dm : Option String) :
    detail r now (some p) m dm =
      Except.ok ({ r with progress := p / subtaskVal r },
        [RendererCall.setProgressCall (p / subtaskVal r),
         RendererCall.updateInterfaceCall (p / subtaskVal r) r.message] ++
          if r.log_debug then
            write_to_log { r with progress := p / subtaskVal r } now (pyOrStr dm m)
          else []) := by
  simp [detail, update, updateCore, hd, hv, hsub, ratTruthy, hp]

/-- `detail` with a falsy `subtask_length` and truthy progress: the progress
setter receives the progress value unchanged. -/
theorem detail_unweighted_ex (r : Reporter) (hd : r.debug_mode = false)
    (hsub : subtaskTruthy r = false) (now : String) (p : Rat) (hp : p ≠ 0)
    (m dm : Option String) :
    ∃ r₂ c₂, detail r now (some p) m dm = Except.ok (r₂, c₂) ∧
      RendererCall.setProgressCall p ∈ c₂ ∧ r₂.progress = p := by
  have hrt : ratTruthy (some p) = true := by simp [ratTruthy, hp]
  by_cases hm : strTruthy m && r.verbose_mode <;>
    simp [detail, update, updateCore, hd, hsub, hrt, hm] <;>
    exact ⟨_, _, ⟨rfl, rfl⟩, by simp, rfl⟩

/-- Claim C1: in non-verbose, non-debug mode, a Detail update carrying a
nonzero progress p calls the progress setter with exactly `p / L` when a minor
scope with nonzero declared length L is active, and with `p` unchanged when
`subtask_length` is absent. -/
theorem C1_detail_weighting (r : Reporter) (hd : r.debug_mode = false)
    (hv : r.verbose_mode = false) (now : String) (p : Rat) (hp : p ≠ 0)
    (m dm : Option String) :
    (∀ L : Rat, L ≠ 0 → r.subtask_length = some (some L) →
      ∃ r₁ c₁, detail r now (some p) m dm = Except.ok (r₁, c₁) ∧
        RendererCall.setProgressCall (p / L) ∈ c₁ ∧ r₁.progress = p / L) ∧
    (subtaskAbsent r →
      ∃ r₁ c₁, detail r now (some p) m dm = Except.ok (r₁, c₁) ∧
        RendererCall.setProgressCall p ∈ c₁ ∧ r₁.progress = p) := by
  constructor
  · intro L hL hsubeq
    have hsub : subtaskTruthy r = true := by simp [subtaskTruthy, hsubeq, hL]
    have hval : subtaskVal r = L := by simp [subtaskVal, hsubeq]
    rw [detail_weighted_eq r hd hv hsub now p hp m dm, hval]
    exact ⟨_, _, rfl, by simp, rfl⟩
  · intro habs
    have hsub : subtaskTruthy r = false := by
      rcases habs with h | h <;> simp [subtaskTruthy, h]
    exact detail_unweighted_ex r hd hsub now p hp m dm

/-- Witness for C1 at a concrete reporter with minor scope length 5 and
progress 3: the setter receives 3/5. -/
theorem C1_detail_weighting_witness :
    ∃ r₁ c₁, detail minorScopeReporter "t" (some 3) none none =
        Except.ok (r₁, c₁) ∧
      RendererCall.setProgressCall (3 / 5) ∈ c₁ ∧ r₁.progress = 3 / 5 :=
  (C1_detail_weighting minorScopeReporter rfl rfl "t" 3 (by norm_num) none
    none).1 5 (by norm_num) rfl

/-- `update` never changes the mode flags, and in verbose mode it never
changes `subtask_length` (the dispatch body version). -/
theorem updateCore_fields (r : Reporter) (t : ProgressUpdateType)
    (p : Option Rat) (m : Option String) (len : Rat) (r' : Reporter)
    (c' : List RendererCall) (h : updateCore r t p m len = Except.ok (r', c')) :
    r'.debug_mode = r.debug_mode ∧ r'.verbose_mode = r.verbose_mode ∧
      (r.verbose_mode = true → r'.subtask_length = r.subtask_length) := by
  cases t
  case major =>
    by_cases hv : r.verbose_mode <;> simp [updateCore, hv] at h <;>
      obtain ⟨rfl, -⟩ := h <;> refine ⟨?_, ?_, ?_⟩ <;> simp_all
  case minor =>
    by_cases hv : r.verbose_mode
    · simp [updateCore, hv] at h; obtain ⟨rfl, -⟩ := h
      refine ⟨?_, ?_, ?_⟩ <;> simp_all
    · by_cases hrp : ratTruthy p <;> by_cases hsm : strTruthy m <;>
        simp [updateCore, hv, hrp, hsm] at h <;> obtain ⟨rfl, -⟩ := h <;>
        refine ⟨?_, ?_, ?_⟩ <;> simp_all
  case detail =>
    by_cases hsub : subtaskTruthy r
    · cases p with
      | none => simp [updateCore, hsub] at h
      | some q =>
          by_cases hrp : ratTruthy (some q) <;>
            by_cases hsm : strTruthy m && r.verbose_mode <;>
            simp [updateCore, hsub, hrp, hsm] at h <;> obtain ⟨rfl, -⟩ := h <;>
            refine ⟨?_, ?_, ?_⟩ <;> simp_all
    · by_cases hrp : ratTruthy p <;>
        by_cases hsm : strTruthy m && r.verbose_mode <;>
        simp [updateCore, hsub, hrp, hsm] at h <;> obtain ⟨rfl, -⟩ := h <;>
        refine ⟨?_, ?_, ?_⟩ <;> simp_all
  case debug =>
    simp [updateCore] at h; obtain ⟨rfl, -⟩ := h
    exact ⟨rfl, rfl, fun _ => rfl⟩

/-- `update` never changes the mode flags, and in verbose mode it never
changes `subtask_length`. -/
theorem update_fields (r : Reporter) (e : UpdateEvent) (r' : Reporter)
    (c' : List RendererCall) (h : updateEv r e = Except.ok (r', c')) :
    r'.debug_mode = r.debug_mode ∧ r'.verbose_mode = r.verbose_mode ∧
      (r.verbose_mode = true → r'.subtask_length = r.subtask_length) := by
  unfold updateEv update at h
  by_cases hdm : r.debug_mode
  · simp [hdm] at h; obtain ⟨rfl, -⟩ := h; exact ⟨rfl, rfl, fun _ => rfl⟩
  · rw [Bool.not_eq_true] at hdm
    simp only [hdm, Bool.false_eq_true, if_false] at h
    rcases hcore : updateCore r e.update_type e.progress e.message e.length
      with f | ⟨r₁, c₁⟩ <;> rw [hcore] at h
    · simp at h
    · simp at h; obtain ⟨rfl, -⟩ := h
      exact updateCore_fields _ _ _ _ _ _ _ hcore

/-- The reachable reporter states: any initial configuration, closed under
successful `update` calls. -/
inductive Reachable : Reporter → Prop where
  | init (im : Option String) (st : Rat) (v d : Bool) (lg oe : String) :
      Reachable (initReporter im st v d lg oe)
  | step (r : Reporter) (e : UpdateEvent) (r₁ : Reporter)
      (calls : List RendererCall) : Reachable r →
      updateEv r e = Except.ok (r₁, calls) → Reachable r₁

/-- In a verbose-mode reporter the `subtask_length` attribute is never set:
only the non-verbose Minor branch assigns it a value. -/
theorem verbose_subtask_invariant (r : Reporter) (h : Reachable r) :
    r.verbose_mode = true → r.subtask_length = none := by
  induction h with
  | init im st v d lg oe => intro _; rfl
  | step r₀ e r₁ calls hr heq ih =>
      intro hv
      obtain ⟨hdm, hvm, hsub⟩ := update_fields r₀ e r₁ calls heq
      have hv₀ : r₀.verbose_mode = true := by rw [← hvm]; exact hv
      rw [hsub hv₀]; exact ih hv₀

/-- In verbose, non-debug mode, `major` only prints the message: the state is
unchanged. -/
theorem major_verbose_eq (r : Reporter) (hd : r.debug_mode = false)
    (hv : r.verbose_mode = true) (now : String) (msg : Option String)
    (len : Rat) (dm : Option String) :
    major r now msg len dm =
      Except.ok (r, [RendererCall.printMessageCall msg] ++
        if r.log_debug then write_to_log r now (pyOrStr dm msg) else []) := by
  simp [major, update, updateCore, hd, hv]

/-- In non-verbose, non-debug mode, `major` sets `subtask_length` to Python
`None`, stores the message, sets the bar length and opens a new bar. -/
theorem major_nonverbose_eq (r : Reporter) (hd : r.debug_mode = false)
    (hv : r.verbose_mode = false) (now : String) (msg : Option String)
    (len : Rat) (dm : Option String) :
    major r now msg len dm =
      Except.ok ({ r with subtask_length := some none, message := msg,
                          progress_length := len },
        [RendererCall.newProgressBarCall len msg none 0] ++
          if r.log_debug then
            write_to_log { r with subtask_length := some none, message := msg,
                                  progress_length := len } now (pyOrStr dm msg)
          else []) := by
  simp [major, update, updateCore, hd, hv]

/-- Claim C2: from any reachable reporter state, in non-debug mode (verbose or
not), a `major` call leaves `subtask_length` absent, so a `detail` with
nonzero progress p issued right after it advances the bar by exactly p,
unweighted. -/
theorem C2_major_then_detail (r : Reporter) (hr : Reachable r)
    (hd : r.debug_mode = false) (now now₂ : String)
    (msg m₂ dm dm₂ : Option String) (len p : Rat) (hp : p ≠ 0) :
    ∃ r₁ c₁, major r now msg len dm = Except.ok (r₁, c₁) ∧ subtaskAbsent r₁ ∧
      ∃ r₂ c₂, detail r₁ now₂ (some p) m₂ dm₂ = Except.ok (r₂, c₂) ∧
        RendererCall.setProgressCall p ∈ c₂ ∧ r₂.progress = p := by
  by_cases hv : r.verbose_mode
  · have hnone : r.subtask_length = none := verbose_subtask_invariant r hr hv
    refine ⟨r, _, major_verbose_eq r hd hv now msg len dm, Or.inl hnone, ?_⟩
    have hsub : subtaskTruthy r = false := by simp [subtaskTruthy, hnone]
    exact detail_unweighted_ex r hd hsub now₂ p hp m₂ dm₂
  · simp only [Bool.not_eq_true] at hv
    refine ⟨_, _, major_nonverbose_eq r hd hv now msg len dm, Or.inr rfl, ?_⟩
    exact detail_unweighted_ex
      { r with subtask_length := some none, message := msg,
               progress_length := len } hd rfl now₂ p hp m₂ dm₂

/-- Witness for C2: from a freshly constructed non-verbose reporter,
`major("Importing", length=10)` then `detail(progress=3)` advances by 3. -/
theorem C2_major_then_detail_witness :
    ∃ r₁ c₁, major plainReporter "t1" (some "Importing") 10 none =
        Except.ok (r₁, c₁) ∧ subtaskAbsent r₁ ∧
      ∃ r₂ c₂, detail r₁ "t2" (some 3) none none = Except.ok (r₂, c₂) ∧
        RendererCall.setProgressCall 3 ∈ c₂ ∧ r₂.progress = 3 :=
  C2_major_then_detail plainReporter
    (Reachable.init none 0 false false "n" "i") rfl "t1" "t2"
    (some "Importing") none none none 10 3 (by norm_num)

/-- The log writer only issues log-write events. -/
theorem mem_write_to_log (r : Reporter) (now : String) (m : Option String)
    (c : RendererCall) (h : c ∈ write_to_log r now m) :
    ∃ t, c = RendererCall.logWriteCall t := by
  unfold write_to_log at h
  split at h
  · simp at h; exact ⟨_, h⟩
  · simp at h

/-- The log writer never issues the interactive prompt. -/
theorem write_to_log_no_prompt (r : Reporter) (now : String)
    (m : Option String) :
    (write_to_log r now m).filter isPromptEvent = [] := by
  unfold write_to_log
  split <;> simp [isPromptEvent]

/-- Claim C5: `report_error` returns "continue" with no prompt under the
continue tokens, "abort" with no prompt under the abort tokens, and otherwise
prompts exactly once and returns the prompt result verbatim.  (When
`log_error` is set the call can only return after the logging step; the
conclusions about a returned value are phrased over any successful return,
and unconditionally when `log_error` is off.) -/
theorem C5_report_error_dispatch (r : Reporter) (now : String)
    (err : PyException) (ctx : List (String × String)) (pr : String) :
    (["c", "continue"].contains r.on_error = true →
      (r.log_error = false →
        report_error r now err ctx pr = Except.ok ("continue", [])) ∧
      ∀ s calls, report_error r now err ctx pr = Except.ok (s, calls) →
        s = "continue" ∧ calls.filter isPromptEvent = []) ∧
    (["a", "abort"].contains r.on_error = true →
      (r.log_error = false →
        report_error r now err ctx pr = Except.ok ("abort", [])) ∧
      ∀ s calls, report_error r now err ctx pr = Except.ok (s, calls) →
        s = "abort" ∧ calls.filter isPromptEvent = []) ∧
    (["c", "continue"].contains r.on_error = false →
      ["a", "abort"].contains r.on_error = false →
      (r.log_error = false →
        report_error r now err ctx pr =
          Except.ok (pr, [RendererCall.promptCall err ctx])) ∧
      ∀ s calls, report_error r now err ctx pr = Except.ok (s, calls) →
        s = pr ∧
          calls.filter isPromptEvent = [RendererCall.promptCall err ctx]) := by
  refine ⟨fun hc => ?_, fun ha => ?_, fun hc ha => ?_⟩
  · have hcp : r.on_error = "c" ∨ r.on_error = "continue" := by simpa using hc
    by_cases hl : r.log_error
    · constructor
      · intro hlf; rw [hlf] at hl; exact Bool.noConfusion hl
      · intro s calls heq
        rcases hei : error_info err with e | info <;>
          simp [report_error, hcp, hl, hei] at heq
        obtain ⟨rfl, rfl⟩ := heq
        exact ⟨rfl, write_to_log_no_prompt r now _⟩
    · constructor
      · intro _; simp [report_error, hcp, hl]
      · intro s calls heq
        simp [report_error, hcp, hl] at heq
        obtain ⟨rfl, rfl⟩ := heq
        exact ⟨rfl, rfl⟩
  · have hap : r.on_error = "a" ∨ r.on_error = "abort" := by simpa using ha
    have hcn : r.on_error ≠ "c" ∧ r.on_error ≠ "continue" := by
      rcases hap with h | h <;> rw [h] <;> exact ⟨by decide, by decide⟩
    by_cases hl : r.log_error
    · constructor
      · intro hlf; rw [hlf] at hl; exact Bool.noConfusion hl
      · intro s calls heq
        rcases hei : error_info err with e | info <;>
          simp [report_error, hcn.1, hcn.2, hap, hl, hei] at heq
        obtain ⟨rfl, rfl⟩ := heq
        exact ⟨rfl, write_to_log_no_prompt r now _⟩
    · constructor
      · intro _; simp [report_error, hcn.1, hcn.2, hap, hl]
      · intro s calls heq
        simp [report_error, hcn.1, hcn.2, hap, hl] at heq
        obtain ⟨rfl, rfl⟩ := heq
        exact ⟨rfl, rfl⟩
  · have hcn : r.on_error ≠ "c" ∧ r.on_error ≠ "continue" := by simpa using hc
    have han : r.on_error ≠ "a" ∧ r.on_error ≠ "abort" := by simpa using ha
    by_cases hl : r.log_error
    · constructor
      · intro hlf; rw [hlf] at hl; exact Bool.noConfusion hl
      · intro s calls heq
        rcases hei : error_info err with e | info <;>
          simp [report_error, hcn.1, hcn.2, han.1, han.2, hl, hei] at heq
        obtain ⟨rfl, rfl⟩ := heq
        refine ⟨rfl, ?_⟩
        simp [isPromptEvent, write_to_log_no_prompt]
    · constructor
      · intro _; simp [report_error, hcn.1, hcn.2, han.1, han.2, hl]
      · intro s calls heq
        simp [report_error, hcn.1, hcn.2, han.1, han.2, hl] at heq
        obtain ⟨rfl, rfl⟩ := heq
        exact ⟨rfl, by simp [isPromptEvent]⟩

/-- Witness for C5: an interactive reporter returns the prompt result
verbatim, with exactly one prompt call. -/
theorem C5_report_error_dispatch_witness :
    report_error plainReporter "t" { args := ["boom"], serverResponse := none }
      [] "retry" =
      Except.ok ("retry", [RendererCall.promptCall
        { args := ["boom"], serverResponse := none } []]) :=
  ((C5_report_error_dispatch plainReporter "t"
      { args := ["boom"], serverResponse := none } [] "retry").2.2 rfl rfl).1 rfl

/-- `_handle_debug` only issues print calls. -/
theorem mem_handle_debug (r : Reporter) (now : String) (m : Option String)
    (c : RendererCall) (h : c ∈ handle_debug r now m) :
    ∃ t, c = RendererCall.printMessageCall t := by
  unfold handle_debug at h
  split at h
  · simp at h; exact ⟨_, h⟩
  · simp at h

/-- Claim C7: whenever `debug_mode` is on, every sequence of updates leaves
the state untouched and the whole trace consists of `printLine` calls only —
no bar-open, bar-close or set-progress operation is ever issued. -/
theorem C7_debug_mode_only_prints (r : Reporter) (evs : List UpdateEvent)
    (h : r.debug_mode = true) :
    ∃ calls, runSeq r evs = Except.ok (r, calls) ∧
      ∀ c ∈ calls, ∃ t, c = RendererCall.printMessageCall t := by
  induction evs with
  | nil => exact ⟨[], rfl, by simp⟩
  | cons e rest ih =>
      obtain ⟨calls, hrun, hall⟩ := ih
      refine ⟨handle_debug r e.now (pyOrStr e.debug_message e.message) ++ calls,
        ?_, ?_⟩
      · simp [runSeq, updateEv, update, h, hrun]
      · intro c hc
        rcases List.mem_append.mp hc with h1 | h2
        · exact mem_handle_debug r e.now _ c h1
        · exact hall c h2

/-- Witness for C7: a debug-mode reporter processing one major update issues
only print calls. -/
theorem C7_debug_mode_only_prints_witness :
    ∃ calls, runSeq debugReporter
        [⟨"t1", ProgressUpdateType.major, none, some "x", 100, none⟩] =
        Except.ok (debugReporter, calls) ∧
      ∀ c ∈ calls, ∃ t, c = RendererCall.printMessageCall t :=
  C7_debug_mode_only_prints debugReporter
    [⟨"t1", ProgressUpdateType.major, none, some "x", 100, none⟩] rfl

/-- Claim C9 (amended): construction never validates the mode tokens — it
succeeds for every `log` / `on_error` string; an unrecognized `log` token
disables both kinds of logging (treated as none) and an unrecognized
`on_error` token falls through to the interactive prompt. -/
theorem C9_amended_tokens_accepted (log oe : String)
    (hl : log ∉ (["n", "none", "e", "error", "d", "debug"] : List String))
    (he : oe ∉ (["i", "interactive", "c", "continue", "a", "abort"] :
      List String))
    (im : Option String) (st : Rat) (v d : Bool) (now : String)
    (err : PyException) (ctx : List (String × String)) (pr : String) :
    (initReporter im st v d log oe).log_debug = false ∧
    (initReporter im st v d log oe).log_error = false ∧
    report_error (initReporter im st v d log oe) now err ctx pr =
      Except.ok (pr, [RendererCall.promptCall err ctx]) := by
  have h6 : log ≠ "n" ∧ log ≠ "none" ∧ log ≠ "e" ∧ log ≠ "error" ∧
      log ≠ "d" ∧ log ≠ "debug" := by simpa using hl
  have h5 : oe ≠ "i" ∧ oe ≠ "interactive" ∧ oe ≠ "c" ∧ oe ≠ "continue" ∧
      oe ≠ "a" ∧ oe ≠ "abort" := by simpa using he
  have hld : (["d", "debug"] : List String).contains log = false := by
    simp [h6.2.2.2.2.1, h6.2.2.2.2.2]
  have hle : (["e", "error"] : List String).contains log = false := by
    simp [h6.2.2.1, h6.2.2.2.1]
  have hcc : (["c", "continue"] : List String).contains oe = false := by
    simp [h5.2.2.1, h5.2.2.2.1]
  have hca : (["a", "abort"] : List String).contains oe = false := by
    simp [h5.2.2.2.2.1, h5.2.2.2.2.2]
  refine ⟨hld, hle, ?_⟩
  simp [report_error, initReporter, h6.2.2.1, h6.2.2.2.1, h5.2.2.1,
    h5.2.2.2.1, h5.2.2.2.2.1, h5.2.2.2.2.2]

/-- Witness for C9 (amended): bogus tokens yield a reporter that does not log
and prompts interactively. -/
theorem C9_amended_tokens_accepted_witness :
    (initReporter none 0 false false "bogus" "bogus").log_debug = false ∧
    (initReporter none 0 false false "bogus" "bogus").log_error = false ∧
    report_error (initReporter none 0 false false "bogus" "bogus") "t"
      { args := ["boom"], serverResponse := none } [] "skip" =
      Except.ok ("skip", [RendererCall.promptCall
        { args := ["boom"], serverResponse := none } []]) :=
  C9_amended_tokens_accepted "bogus" "bogus" (by decide) (by decide) none 0
    false false "t" { args := ["boom"], serverResponse := none } [] "skip"

/-- A zero-progress Detail update in the dispatch body: the zero is dropped by
the `if progress:` truthiness check; no progress setter call is issued and
progress is unchanged. -/
theorem updateCore_detail_zero (r : Reporter) (m : Option String) (len : Rat) :
    ∃ r₁ calls, updateCore r ProgressUpdateType.detail (some 0) m len =
        Except.ok (r₁, calls) ∧ r₁.progress = r.progress ∧
      ∀ v : Rat, RendererCall.setProgressCall v ∉ calls := by
  by_cases hsub : subtaskTruthy r <;>
    by_cases hm : strTruthy m && r.verbose_mode <;>
    simp [updateCore, hsub, hm, ratTruthy] <;>
    exact ⟨_, _, ⟨rfl, rfl⟩, rfl, by intro v hv; simp at hv⟩

/-- A set-progress event never comes from the optional log tail. -/
theorem sp_not_mem_log_tail (r : Reporter) (now : String) (msg : Option String)
    (v : Rat) (b : Bool)
    (h : RendererCall.setProgressCall v ∈
      (if b then write_to_log r now msg else [])) : False := by
  split at h
  · obtain ⟨t, ht⟩ := mem_write_to_log r now msg _ h
    exact RendererCall.noConfusion ht
  · simp at h

/-- Claim C10 (amended): a Minor or Detail update carrying `progress = 0`
never calls the progress setter and leaves `progress` unchanged; for Minor
updates (any mode), and for Detail updates in debug mode or without an active
nonzero `subtask_length`, the result coincides exactly with progress absent —
but with an active nonzero `subtask_length` a Detail with progress absent
raises a `TypeError` while `progress = 0` completes normally. -/
theorem C10_amended_zero_progress (r : Reporter) (now : String)
    (m dm : Option String) (len : Rat) :
    update r now ProgressUpdateType.minor (some 0) m len dm =
      update r now ProgressUpdateType.minor none m len dm ∧
    (r.debug_mode = true ∨ subtaskTruthy r = false →
      detail r now (some 0) m dm = detail r now none m dm) ∧
    ∃ r₁ calls, detail r now (some 0) m dm = Except.ok (r₁, calls) ∧
      r₁.progress = r.progress ∧
      ∀ v : Rat, RendererCall.setProgressCall v ∉ calls := by
  refine ⟨?_, ?_, ?_⟩
  · by_cases hdm : r.debug_mode
    · simp [update, hdm]
    · by_cases hv : r.verbose_mode <;>
        simp [update, updateCore, hdm, hv, ratTruthy]
  · intro hcase
    rcases hcase with hdm | hsub
    · simp [detail, update, hdm]
    · by_cases hdm : r.debug_mode
      · simp [detail, update, hdm]
      · simp [detail, update, updateCore, hdm, hsub, ratTruthy]
  · by_cases hdm : r.debug_mode
    · refine ⟨r, _, update_debug_eq r hdm now ProgressUpdateType.detail
        (some 0) m 100 dm, rfl, ?_⟩
      intro v hv
      obtain ⟨t, ht⟩ := mem_handle_debug r now _ _ hv
      exact RendererCall.noConfusion ht
    · obtain ⟨r₁, calls, hcore, hprog, hnomem⟩ := updateCore_detail_zero r m 100
      refine ⟨r₁, calls ++
        (if r₁.log_debug then write_to_log r₁ now (pyOrStr dm m) else []),
        ?_, hprog, ?_⟩
      · simp [detail, update, hdm, hcore]
      · intro v hv
        rcases List.mem_append.mp hv with h1 | h2
        · exact hnomem v h1
        · exact sp_not_mem_log_tail r₁ now (pyOrStr dm m) v r₁.log_debug h2

/-- Witness for C10 (amended) at a fresh non-verbose reporter: zero progress
behaves exactly like absent progress, with no setter call. -/
theorem C10_amended_zero_progress_witness :
    update plainReporter "t" ProgressUpdateType.minor (some 0) none 7 none =
      update plainReporter "t" ProgressUpdateType.minor none none 7 none ∧
    detail plainReporter "t" (some 0) none none =
      detail plainReporter "t" none none none ∧
    ∃ r₁ calls, detail plainReporter "t" (some 0) none none =
        Except.ok (r₁, calls) ∧ r₁.progress = plainReporter.progress ∧
      ∀ v : Rat, RendererCall.setProgressCall v ∉ calls :=
  ⟨(C10_amended_zero_progress plainReporter "t" none none 7).1,
   (C10_amended_zero_progress plainReporter "t" none none 7).2.1 (Or.inr rfl),
   (C10_amended_zero_progress plainReporter "t" none none 7).2.2⟩

/-- Unpacking the boundedness invariant. -/
theorem invB_spec (r : Reporter) (h : invB r = true) :
    r.debug_mode = false ∧ r.verbose_mode = false ∧
      r.progress ≤ r.progress_length ∧ (1 : Rat) ≤ r.progress_length ∧
      (0 : Rat) ≤ subtaskVal r := by
  simp only [invB, Bool.and_eq_true, Bool.not_eq_true', decide_eq_true_eq] at h
  exact ⟨h.1.1.1.1, h.1.1.1.2, h.1.1.2, h.1.2, h.2⟩

/-- Packing the boundedness invariant. -/
theorem invB_intro (r : Reporter) (h1 : r.debug_mode = false)
    (h2 : r.verbose_mode = false) (h3 : r.progress ≤ r.progress_length)
    (h4 : (1 : Rat) ≤ r.progress_length) (h5 : (0 : Rat) ≤ subtaskVal r) :
    invB r = true := by
  simp only [invB, Bool.and_eq_true, Bool.not_eq_true', decide_eq_true_eq]
  exact ⟨⟨⟨⟨h1, h2⟩, h3⟩, h4⟩, h5⟩

/-- A truthy `subtask_length` stored a nonzero value. -/
theorem subtaskTruthy_val_ne (r : Reporter) (h : subtaskTruthy r = true) :
    subtaskVal r ≠ 0 := by
  rcases hseq : r.subtask_length with - | (- | l)
  · simp [subtaskTruthy, hseq] at h
  · simp [subtaskTruthy, hseq] at h
  · simp [subtaskTruthy, hseq] at h
    simpa [subtaskVal, hseq] using h

/-- Everything in the optional log tail of an `update` call is a log write. -/
theorem mem_log_tail (r : Reporter) (now : String) (msg : Option String)
    (c : RendererCall) (b : Bool)
    (h : c ∈ (if b then write_to_log r now msg else [])) :
    ∃ t, c = RendererCall.logWriteCall t := by
  split at h
  · exact mem_write_to_log r now msg c h
  · simp at h

/-- One well-behaved step from an invariant state succeeds, preserves the
invariant, and never pushes a progress value above the (new) bar length. -/
theorem C4_step (r : Reporter) (e : UpdateEvent) (hi : invB r = true)
    (hg : goodEvent r e = true) :
    ∃ r₁ calls, updateEv r e = Except.ok (r₁, calls) ∧ invB r₁ = true ∧
      (∀ v : Rat, RendererCall.setProgressCall v ∈ calls →
        v ≤ r₁.progress_length) ∧
      (∀ q mm, RendererCall.updateInterfaceCall q mm ∈ calls →
        q ≤ r₁.progress_length) := by
  obtain ⟨hdm, hv, h3, h4, h5⟩ := invB_spec r hi
  obtain ⟨now, t, p, m, len, dm⟩ := e
  cases t
  case major =>
    simp only [goodEvent, Bool.and_eq_true, decide_eq_true_eq] at hg
    obtain ⟨h1len, hstale⟩ := hg
    refine ⟨{ r with subtask_length := some none, message := m,
                     progress_length := len },
      [RendererCall.newProgressBarCall len m p 0] ++
        (if r.log_debug then
          write_to_log { r with subtask_length := some none, message := m,
                                progress_length := len } now (pyOrStr dm m)
         else []), ?_, ?_, ?_, ?_⟩
    · simp [updateEv, update, updateCore, hdm, hv]
    · exact invB_intro _ hdm hv hstale h1len le_rfl
    · intro v hmem
      rcases List.mem_append.mp hmem with h | h
      · simp at h
      · obtain ⟨t, ht⟩ := mem_log_tail _ _ _ _ _ h
        exact RendererCall.noConfusion ht
    · intro q mm hmem
      rcases List.mem_append.mp hmem with h | h
      · simp at h
      · obtain ⟨t, ht⟩ := mem_log_tail _ _ _ _ _ h
        exact RendererCall.noConfusion ht
  case minor =>
    cases p with
    | none =>
        simp only [goodEvent, Bool.and_eq_true, decide_eq_true_eq,
          Bool.and_true] at hg
        have h0len : (0 : Rat) ≤ len := hg
        cases hsm : strTruthy m with
        | true =>
            refine ⟨{ r with subtask_length := some (some len), message := m },
              [RendererCall.setMessageCall (m.getD ""),
               RendererCall.updateInterfaceCall r.progress m] ++
                (if r.log_debug then
                  write_to_log { r with subtask_length := some (some len),
                                        message := m } now (pyOrStr dm m)
                 else []), ?_, ?_, ?_, ?_⟩
            · simp [updateEv, update, updateCore, hdm, hv, hsm, ratTruthy]
            · exact invB_intro _ hdm hv h3 h4 h0len
            · intro v hmem
              rcases List.mem_append.mp hmem with h | h
              · simp at h
              · obtain ⟨t, ht⟩ := mem_log_tail _ _ _ _ _ h
                exact RendererCall.noConfusion ht
            · intro q mm hmem
              rcases List.mem_append.mp hmem with h | h
              · simp at h
                exact h.1 ▸ h3
              · obtain ⟨t, ht⟩ := mem_log_tail _ _ _ _ _ h
                exact RendererCall.noConfusion ht
        | false =>
            refine ⟨{ r with subtask_length := some (some len) },
              [RendererCall.updateInterfaceCall r.progress r.message] ++
                (if r.log_debug then
                  write_to_log { r with subtask_length := some (some len) }
                    now (pyOrStr dm m)
                 else []), ?_, ?_, ?_, ?_⟩
            · simp [updateEv, update, updateCore, hdm, hv, hsm, ratTruthy]
            · exact invB_intro _ hdm hv h3 h4 h0len
            · intro v hmem
              rcases List.mem_append.mp hmem with h | h
              · simp at h
              · obtain ⟨t, ht⟩ := mem_log_tail _ _ _ _ _ h
                exact RendererCall.noConfusion ht
            · intro q mm hmem
              rcases List.mem_append.mp hmem with h | h
              · simp at h
                exact h.1 ▸ h3
              · obtain ⟨t, ht⟩ := mem_log_tail _ _ _ _ _ h
                exact RendererCall.noConfusion ht
    | some q =>
        simp only [goodEvent, Bool.and_eq_true, decide_eq_true_eq] at hg
        obtain ⟨h0len, h0q, hqle⟩ := hg
        cases hq : ratTruthy (some q) with
        | false =>
            cases hsm : strTruthy m with
            | true =>
                refine ⟨{ r with subtask_length := some (some len),
                                 message := m },
                  [RendererCall.setMessageCall (m.getD ""),
                   RendererCall.updateInterfaceCall r.progress m] ++
                    (if r.log_debug then
                      write_to_log { r with subtask_length := some (some len),
                                            message := m } now (pyOrStr dm m)
                     else []), ?_, ?_, ?_, ?_⟩
                · simp [updateEv, update, updateCore, hdm, hv, hsm, hq]
                · exact invB_intro _ hdm hv h3 h4 h0len
                · intro v hmem
                  rcases List.mem_append.mp hmem with h | h
                  · simp at h
                  · obtain ⟨t, ht⟩ := mem_log_tail _ _ _ _ _ h
                    exact RendererCall.noConfusion ht
                · intro qq mm hmem
                  rcases List.mem_append.mp hmem with h | h
                  · simp at h
                    exact h.1 ▸ h3
                  · obtain ⟨t, ht⟩ := mem_log_tail _ _ _ _ _ h
                    exact RendererCall.noConfusion ht
            | false =>
                refine ⟨{ r with subtask_length := some (some len) },
                  [RendererCall.updateInterfaceCall r.progress r.message] ++
                    (if r.log_debug then
                      write_to_log { r with subtask_length := some (some len) }
                        now (pyOrStr dm m)
                     else []), ?_, ?_, ?_, ?_⟩
                · simp [updateEv, update, updateCore, hdm, hv, hsm, hq]
                · exact invB_intro _ hdm hv h3 h4 h0len
                · intro v hmem
                  rcases List.mem_append.mp hmem with h | h
                  · simp at h
                  · obtain ⟨t, ht⟩ := mem_log_tail _ _ _ _ _ h
                    exact RendererCall.noConfusion ht
                · intro qq mm hmem
                  rcases List.mem_append.mp hmem with h | h
                  · simp at h
                    exact h.1 ▸ h3
                  · obtain ⟨t, ht⟩ := mem_log_tail _ _ _ _ _ h
                    exact RendererCall.noConfusion ht
        | true =>
            cases hsm : strTruthy m with
            | true =>
                refine ⟨{ r with subtask_length := some (some len),
                                 progress := q, message := m },
                  [RendererCall.setProgressCall q,
                   RendererCall.setMessageCall (m.getD ""),
                   RendererCall.updateInterfaceCall q m] ++
                    (if r.log_debug then
                      write_to_log { r with subtask_length := some (some len),
                                            progress := q, message := m }
                        now (pyOrStr dm m)
                     else []), ?_, ?_, ?_, ?_⟩
                · simp [updateEv, update, updateCore, hdm, hv, hsm, hq]
                · exact invB_intro _ hdm hv hqle h4 h0len
                · intro v hmem
                  rcases List.mem_append.mp hmem with h | h
                  · simp at h
                    exact h ▸ hqle
                  · obtain ⟨t, ht⟩ := mem_log_tail _ _ _ _ _ h
                    exact RendererCall.noConfusion ht
                · intro qq mm hmem
                  rcases List.mem_append.mp hmem with h | h
                  · simp at h
                    exact h.1 ▸ hqle
                  · obtain ⟨t, ht⟩ := mem_log_tail _ _ _ _ _ h
                    exact RendererCall.noConfusion ht
            | false =>
                refine ⟨{ r with subtask_length := some (some len),
                                 progress := q },
                  [RendererCall.setProgressCall q,
                   RendererCall.updateInterfaceCall q r.message] ++
                    (if r.log_debug then
                      write_to_log { r with subtask_length := some (some len),
                                            progress := q } now (pyOrStr dm m)
                     else []), ?_, ?_, ?_, ?_⟩
                · simp [updateEv, update, updateCore, hdm, hv, hsm, hq]
                · exact invB_intro _ hdm hv hqle h4 h0len
                · intro v hmem
                  rcases List.mem_append.mp hmem with h | h
                  · simp at h
                    exact h ▸ hqle
                  · obtain ⟨t, ht⟩ := mem_log_tail _ _ _ _ _ h
                    exact RendererCall.noConfusion ht
                · intro qq mm hmem
                  rcases List.mem_append.mp hmem with h | h
                  · simp at h
                    exact h.1 ▸ hqle
                  · obtain ⟨t, ht⟩ := mem_log_tail _ _ _ _ _ h
                    exact RendererCall.noConfusion ht
  case detail =>
    cases p with
    | none => simp [goodEvent] at hg
    | some q =>
        simp only [goodEvent, Bool.and_eq_true, decide_eq_true_eq] at hg
        obtain ⟨h0q, hgi⟩ := hg
        cases hsub : subtaskTruthy r with
        | true =>
            have hqle : q ≤ subtaskVal r := by
              rw [hsub] at hgi; simpa using hgi
            have hL : (0 : Rat) < subtaskVal r :=
              lt_of_le_of_ne h5 (Ne.symm (subtaskTruthy_val_ne r hsub))
            have hwle : q / subtaskVal r ≤ r.progress_length :=
              le_trans ((div_le_one hL).mpr hqle) h4
            cases hq : ratTruthy (some q) with
            | false =>
                refine ⟨r,
                  [RendererCall.updateInterfaceCall r.progress r.message] ++
                    (if r.log_debug then write_to_log r now (pyOrStr dm m)
                     else []), ?_, hi, ?_, ?_⟩
                · simp [updateEv, update, updateCore, hdm, hv, hsub, hq]
                · intro v hmem
                  rcases List.mem_append.mp hmem with h | h
                  · simp at h
                  · obtain ⟨t, ht⟩ := mem_log_tail _ _ _ _ _ h
                    exact RendererCall.noConfusion ht
                · intro qq mm hmem
                  rcases List.mem_append.mp hmem with h | h
                  · simp at h
                    exact h.1 ▸ h3
                  · obtain ⟨t, ht⟩ := mem_log_tail _ _ _ _ _ h
                    exact RendererCall.noConfusion ht
            | true =>
                refine ⟨{ r with progress := q / subtaskVal r },
                  [RendererCall.setProgressCall (q / subtaskVal r),
                   RendererCall.updateInterfaceCall (q / subtaskVal r)
                     r.message] ++
                    (if r.log_debug then
                      write_to_log { r with progress := q / subtaskVal r }
                        now (pyOrStr dm m)
                     else []), ?_, ?_, ?_, ?_⟩
                · simp [updateEv, update, updateCore, hdm, hv, hsub, hq]
                · exact invB_intro _ hdm hv hwle h4 h5
                · intro v hmem
                  rcases List.mem_append.mp hmem with h | h
                  · simp at h
                    exact h ▸ hwle
                  · obtain ⟨t, ht⟩ := mem_log_tail _ _ _ _ _ h
                    exact RendererCall.noConfusion ht
                · intro qq mm hmem
                  rcases List.mem_append.mp hmem with h | h
                  · simp at h
                    exact h.1 ▸ hwle
                  · obtain ⟨t, ht⟩ := mem_log_tail _ _ _ _ _ h
                    exact RendererCall.noConfusion ht
        | false =>
            have hqle : q ≤ r.progress_length := by
              rw [hsub] at hgi; simpa using hgi
            cases hq : ratTruthy (some q) with
            | false =>
                refine ⟨r,
                  [RendererCall.updateInterfaceCall r.progress r.message] ++
                    (if r.log_debug then write_to_log r now (pyOrStr dm m)
                     else []), ?_, hi, ?_, ?_⟩
                · simp [updateEv, update, updateCore, hdm, hv, hsub, hq]
                · intro v hmem
                  rcases List.mem_append.mp hmem with h | h
                  · simp at h
                  · obtain ⟨t, ht⟩ := mem_log_tail _ _ _ _ _ h
                    exact RendererCall.noConfusion ht
                · intro qq mm hmem
                  rcases List.mem_append.mp hmem with h | h
                  · simp at h
                    exact h.1 ▸ h3
                  · obtain ⟨t, ht⟩ := mem_log_tail _ _ _ _ _ h
                    exact RendererCall.noConfusion ht
            | true =>
                refine ⟨{ r with progress := q },
                  [RendererCall.setProgressCall q,
                   RendererCall.updateInterfaceCall q r.message] ++
                    (if r.log_debug then
                      write_to_log { r with progress := q } now (pyOrStr dm m)
                     else []), ?_, ?_, ?_, ?_⟩
                · simp [updateEv, update, updateCore, hdm, hv, hsub, hq]
                · exact invB_intro _ hdm hv hqle h4 h5
                · intro v hmem
                  rcases List.mem_append.mp hmem with h | h
                  · simp at h
                    exact h ▸ hqle
                  · obtain ⟨t, ht⟩ := mem_log_tail _ _ _ _ _ h
                    exact RendererCall.noConfusion ht
                · intro qq mm hmem
                  rcases List.mem_append.mp hmem with h | h
                  · simp at h
                    exact h.1 ▸ hqle
                  · obtain ⟨t, ht⟩ := mem_log_tail _ _ _ _ _ h
                    exact RendererCall.noConfusion ht
  case debug =>
    refine ⟨r, [] ++ (if r.log_debug then write_to_log r now (pyOrStr dm m)
      else []), ?_, hi, ?_, ?_⟩
    · simp [updateEv, update, updateCore, hdm]
    · intro v hmem
      rcases List.mem_append.mp hmem with h | h
      · simp at h
      · obtain ⟨t, ht⟩ := mem_log_tail _ _ _ _ _ h
        exact RendererCall.noConfusion ht
    · intro qq mm hmem
      rcases List.mem_append.mp hmem with h | h
      · simp at h
      · obtain ⟨t, ht⟩ := mem_log_tail _ _ _ _ _ h
        exact RendererCall.noConfusion ht

/-- Claim C4 (amended): in non-verbose, non-debug mode, for every well-behaved
sequence of update calls (`goodRun`: major lengths ≥ 1 and at least the
current progress, minor progress within the bar, detail progress within the
active nonzero subtask length or within the bar), the run succeeds and at
every step the progress held by the reporter — and every progress value pushed
to the renderer via the progress setter or the interface push — stays within
the most recently set bar length. -/
theorem C4_amended_bounded_run (r : Reporter) (evs : List UpdateEvent)
    (hi : invB r = true) (hg : goodRun r evs = true) :
    ∃ steps, runTrace r evs = Except.ok steps ∧
      ∀ s ∈ steps, invB s.1 = true ∧ s.1.progress ≤ s.1.progress_length ∧
        (∀ v : Rat, RendererCall.setProgressCall v ∈ s.2 →
          v ≤ s.1.progress_length) ∧
        (∀ q mm, RendererCall.updateInterfaceCall q mm ∈ s.2 →
          q ≤ s.1.progress_length) := by
  induction evs generalizing r with
  | nil => exact ⟨[], rfl, by simp⟩
  | cons e rest ih =>
      simp only [goodRun, Bool.and_eq_true] at hg
      obtain ⟨hge, hrest⟩ := hg
      obtain ⟨r₁, calls, heq, hi₁, hsp, hui⟩ := C4_step r e hi hge
      rw [heq] at hrest
      simp only [] at hrest
      obtain ⟨steps, hrun, hall⟩ := ih r₁ hi₁ hrest
      refine ⟨(r₁, calls) :: steps, ?_, ?_⟩
      · simp [runTrace, heq, hrun]
      · intro s hs
        rcases List.mem_cons.mp hs with rfl | hs'
        · exact ⟨hi₁, (invB_spec r₁ hi₁).2.2.1, hsp, hui⟩
        · exact hall s hs'

/-- Witness for C4 (amended): the spec scenario `major(length=10)`,
`minor(length=5)`, `detail(progress=3)` from a fresh reporter is well-behaved
and stays within the bar at every step. -/
theorem C4_amended_bounded_run_witness :
    invB plainReporter = true ∧
    ∃ steps, runTrace plainReporter
        [⟨"t1", ProgressUpdateType.major, none, some "Importing", 10, none⟩,
         ⟨"t2", ProgressUpdateType.minor, none, some "Articles", 5, none⟩,
         ⟨"t3", ProgressUpdateType.detail, some 3, none, 100, none⟩] =
        Except.ok steps ∧
      ∀ s ∈ steps, invB s.1 = true ∧ s.1.progress ≤ s.1.progress_length ∧
        (∀ v : Rat, RendererCall.setProgressCall v ∈ s.2 →
          v ≤ s.1.progress_length) ∧
        (∀ q mm, RendererCall.updateInterfaceCall q mm ∈ s.2 →
          q ≤ s.1.progress_length) :=
  ⟨by decide, C4_amended_bounded_run plainReporter
    [⟨"t1", ProgressUpdateType.major, none, some "Importing", 10, none⟩,
     ⟨"t2", ProgressUpdateType.minor, none, some "Articles", 5, none⟩,
     ⟨"t3", ProgressUpdateType.detail, some 3, none, 100, none⟩]
    (by decide) (by decide)⟩

end JournalTransporter
